import Mathlib

/-!
Verification of the lyrafy track-recommendation pipeline: a shallow embedding
of the taste profiler, similarity scorer, deduplicators, candidate generator
and preview reconciler, together with proofs of the specified properties.

JavaScript numbers are modelled as exact rationals (`ℚ`); JavaScript strings
as Lean `String`, with the string operations used by the code (`toLowerCase`,
`trim`, `includes`) re-implemented over the character list so that they
compute by kernel reduction.
-/

namespace Lyrafy

/-- Model of `String.prototype.toLowerCase` (ASCII-adequate). -/
def jsToLower (s : String) : String :=
  String.mk (s.data.map Char.toLower)

/-- Model of `String.prototype.trim`: strip whitespace from both ends. -/
def jsTrim (s : String) : String :=
  String.mk (((s.data.dropWhile Char.isWhitespace).reverse.dropWhile
    Char.isWhitespace).reverse)

/-- Does `pat` occur at the head of the second list? -/
def leadsWith : List Char → List Char → Bool
  | [], _ => true
  | _ :: _, [] => false
  | a :: as, b :: bs => a == b && leadsWith as bs

/-- Does `pat` occur as a contiguous subsequence of the second list? -/
def containsSeq (pat : List Char) : List Char → Bool
  | [] => leadsWith pat []
  | c :: cs => leadsWith pat (c :: cs) || containsSeq pat cs

/-- Model of `s.includes(sub)`. -/
def jsIncludes (s sub : String) : Bool :=
  containsSeq sub.data s.data

/-- Artist record (`SpotifyArtist` in `src/types/music.ts`); only the fields
the pipeline reads are modelled. -/
structure SpotifyArtist where
  id : String
  name : String
  deriving DecidableEq, Repr

/-- Album record (`SpotifyAlbum` in `src/types/music.ts`), restricted to the
fields the pipeline reads. -/
structure SpotifyAlbum where
  id : String
  name : String
  release_date : String
  deriving DecidableEq, Repr

/-- Track record (`SpotifyTrack` in `src/types/music.ts`); `preview_url` is
`string | null` in the source, modelled as `Option String`, and numbers are
modelled as `ℚ`. -/
structure SpotifyTrack where
  id : String
  name : String
  artists : List SpotifyArtist
  album : SpotifyAlbum
  duration_ms : ℚ
  preview_url : Option String
  popularity : ℚ
  deriving DecidableEq, Repr

/-- The dedup key of `removeDuplicateTracksByName`:
`track.name.toLowerCase().trim()`. -/
def normName (t : SpotifyTrack) : String :=
  jsTrim (jsToLower t.name)

/-- Loop of `removeDuplicateTracksByName` (`src/utils/deduplication.ts`),
carrying the `seen` set of normalized names. -/
def removeDupByNameGo (seen : List String) : List SpotifyTrack → List SpotifyTrack
  | [] => []
  | t :: ts =>
    if normName t ∈ seen then removeDupByNameGo seen ts
    else t :: removeDupByNameGo (normName t :: seen) ts

/-- One of `removeDuplicateTracksByName` from `src/utils/deduplication.ts`: keep
the first occurrence of each normalized (lower-cased, trimmed) title. -/
def removeDuplicateTracksByName (tracks : List SpotifyTrack) : List SpotifyTrack :=
  removeDupByNameGo [] tracks

/-- Loop of `removeDuplicateTracksByIdAndName`, carrying both `seen` sets. -/
def removeDupByIdAndNameGo (seenIds seenNames : List String) :
    List SpotifyTrack → List SpotifyTrack
  | [] => []
  | t :: ts =>
    if t.id ∈ seenIds ∨ normName t ∈ seenNames then
      removeDupByIdAndNameGo seenIds seenNames ts
    else t :: removeDupByIdAndNameGo (t.id :: seenIds) (normName t :: seenNames) ts

/-- Model of `removeDuplicateTracksByIdAndName` from `src/utils/deduplication.ts`:
keep a track only when both its id and its normalized name are new. -/
def removeDuplicateTracksByIdAndName (tracks : List SpotifyTrack) : List SpotifyTrack :=
  removeDupByIdAndNameGo [] [] tracks

/-- Digit character for `n < 10`. -/
def digitChar (n : Nat) : Char :=
  Char.ofNat (48 + n)

/-- Decimal digits of `n`, with explicit fuel so that it computes by kernel
reduction. -/
def natToChars : Nat → Nat → List Char
  | 0, _ => []
  | fuel + 1, n =>
    if n < 10 then [digitChar n]
    else natToChars fuel (n / 10) ++ [digitChar (n % 10)]

/-- Decimal rendering of a natural number (model of JS template-string
conversion of a non-negative integer). -/
def natToString (n : Nat) : String :=
  String.mk (natToChars (n + 1) n)

/-- Model of `new Date(track.album.release_date).getFullYear()` for the ISO
`yyyy-mm-dd` strings the catalogs return: the leading four digits, `none`
when the string does not start with four digits (the `NaN` outcome). -/
def parseReleaseYear (s : String) : Option Nat :=
  let digits := s.data.take 4
  if digits.length = 4 ∧ digits.all Char.isDigit then
    some (digits.foldl (fun n c => n * 10 + (c.toNat - 48)) 0)
  else none

/-- The year-to-decade label: `Math.floor(year / 10) * 10` with an "s" suffix. -/
def decadeLabel (year : Nat) : String :=
  natToString (year / 10 * 10) ++ "s"

/-- A min/max/average triple (the `\x7bmin, max, average\x7d` shape of the profile). -/
structure FeatureStats where
  min : ℚ
  max : ℚ
  average : ℚ
  deriving DecidableEq, Repr

/-- All-zero stats, used for the placeholder features of the profile. -/
def zeroStats : FeatureStats := ⟨0, 0, 0⟩

/-- Model of `MusicTasteProfile` from `src/services/aiMusicService.ts`. -/
structure MusicTasteProfile where
  genres : List String
  moods : List String
  tempo : FeatureStats
  energy : FeatureStats
  danceability : FeatureStats
  valence : FeatureStats
  acousticness : FeatureStats
  instrumentalness : FeatureStats
  popularity : FeatureStats
  key : List ℚ
  timeSignature : List ℚ
  artists : List String
  decades : List String
  deriving DecidableEq, Repr

/-- Model of `SimilarTrack` from `src/services/aiMusicService.ts`. -/
structure SimilarTrack where
  track : SpotifyTrack
  similarityScore : ℚ
  reasons : List String
  deriving DecidableEq, Repr

/-- Model of `calculateBasicSimilarity` from `src/services/aiMusicService.ts`
(lines 373-431), on the path where a taste profile is present. Signals are
evaluated in source order: preferred artist (+0.5), preferred decade (+0.3),
genre keyword (+0.2), popularity proximity (with a 0.1 multiplier),
multi-signal bonus (+0.1); the final score is clamped by `Math.min(1, score)`
and the reasons are sliced to at most 3. -/
def calculateBasicSimilarity (p : MusicTasteProfile) (track : SpotifyTrack) :
    SimilarTrack :=
  let trackArtists := track.artists.map fun a => a.name
  let hasPreferredArtist := trackArtists.any fun a => p.artists.contains a
  let score1 : ℚ := if hasPreferredArtist then 1/2 else 0
  let reasons1 : List String :=
    if hasPreferredArtist then ["By preferred artist"] else []
  let decadeHit : Option String :=
    match parseReleaseYear track.album.release_date with
    | none => none
    | some y => if p.decades.contains (decadeLabel y) then some (decadeLabel y) else none
  let score2 : ℚ := score1 + (if decadeHit.isSome then 3/10 else 0)
  let reasons2 := reasons1 ++
    (match decadeHit with
     | some d => ["From preferred decade (" ++ d ++ ")"]
     | none => [])
  let trackName := jsToLower track.name
  let hasGenreKeyword := (p.genres.map jsToLower).any fun g =>
    jsIncludes trackName g || jsIncludes g trackName
  let score3 : ℚ := score2 + (if hasGenreKeyword then 1/5 else 0)
  let reasons3 := reasons2 ++
    (if hasGenreKeyword then ["Contains preferred genre keywords"] else [])
  let popularityDiff : ℚ := |track.popularity - p.popularity.average|
  let popularityScore : ℚ := max 0 (1 - popularityDiff / 100)
  let score4 : ℚ := score3 + popularityScore * (1/10)
  let score5 : ℚ := score4 + (if 2 ≤ reasons3.length then 1/10 else 0)
  { track := track, similarityScore := min 1 score5, reasons := reasons3.take 3 }

/-- Keyword table of `inferGenresFromTrack` from
`src/services/aiMusicService.ts` (lines 238-261): the substring tests
against the lower-cased track name and primary artist name, in source
order. -/
def inferGenresList (name artist : String) : List String :=
  (if jsIncludes name "rap" || jsIncludes name "hip" || jsIncludes artist "rap" then
    ["Hip-Hop"] else []) ++
    (if jsIncludes name "rock" || jsIncludes artist "rock" then ["Rock"] else []) ++
    (if jsIncludes name "pop" || jsIncludes artist "pop" then ["Pop"] else []) ++
    (if jsIncludes name "jazz" || jsIncludes artist "jazz" then ["Jazz"] else []) ++
    (if jsIncludes name "electronic" || jsIncludes artist "electronic" then
      ["Electronic"] else []) ++
    (if jsIncludes name "country" || jsIncludes artist "country" then
      ["Country"] else []) ++
    (if jsIncludes name "classical" || jsIncludes artist "classical" then
      ["Classical"] else []) ++
    (if jsIncludes name "blues" || jsIncludes artist "blues" then ["Blues"] else []) ++
    (if jsIncludes name "folk" || jsIncludes artist "folk" then ["Folk"] else []) ++
    (if jsIncludes name "reggae" || jsIncludes artist "reggae" then ["Reggae"] else [])

/-- Second half of `inferGenresFromTrack`: derive the keyword hits from the
lower-cased track name and primary artist name, with the "Pop" fallback. -/
def inferGenresFromTrack (track : SpotifyTrack) : List String :=
  let name := jsToLower track.name
  let artist := jsToLower (((track.artists.head?).map fun a => a.name).getD "")
  let genres := inferGenresList name artist
  if genres.isEmpty then ["Pop"] else genres

/-- One `genreCount[genre] = (genreCount[genre] || 0) + 1` step on the
insertion-ordered tally (a JS object with string keys). -/
def bump (counts : List (String × Nat)) (g : String) : List (String × Nat) :=
  if counts.any fun p => p.1 == g then
    counts.map fun p => if p.1 == g then (p.1, p.2 + 1) else p
  else counts ++ [(g, 1)]

/-- Bump every label of a list in order. -/
def bumpAll (counts : List (String × Nat)) (gs : List String) : List (String × Nat) :=
  gs.foldl bump counts

/-- The genre tally built by `extractGenres`: for each track, the loop over
`track.artists` re-counts the track inferred genres once per artist (the
artist variable is unused in the source loop body). -/
def genreTally (tracks : List SpotifyTrack) : List (String × Nat) :=
  tracks.foldl
    (fun acc t => t.artists.foldl (fun acc2 _ => bumpAll acc2 (inferGenresFromTrack t)) acc)
    []

/-- Model of `extractGenres` from `src/services/aiMusicService.ts` (lines
218-236): sort the tally entries by descending count (stable, so ties keep
insertion order), take 10, keep the labels. -/
def extractGenres (tracks : List SpotifyTrack) : List String :=
  ((((genreTally tracks).insertionSort fun a b => b.2 ≤ a.2).take 10).map fun p => p.1)

/-- Insertion-ordered deduplication loop for a string list. -/
def dedupFirstGo (seen : List String) : List String → List String
  | [] => []
  | x :: xs =>
    if x ∈ seen then dedupFirstGo seen xs else x :: dedupFirstGo (x :: seen) xs

/-- Model of `[...new Set(xs)]`: first occurrences, in order. -/
def dedupFirst (l : List String) : List String :=
  dedupFirstGo [] l

/-- Model of `analyzeFeature` from `src/services/aiMusicService.ts`
(lines 263-272); in the rational model every value is valid (no `NaN` or
`null`), so the validity filter keeps everything. -/
def analyzeFeature (values : List ℚ) : FeatureStats :=
  match values with
  | [] => ⟨0, 0, 0⟩
  | v :: vs =>
    { min := vs.foldl min v, max := vs.foldl max v,
      average := (v :: vs).sum / (v :: vs).length }

/-- Model of `determineMoodsFromTracks` from `src/services/aiMusicService.ts`
(lines 274-321). The `0/0` average of an empty input is `NaN` in JS and `0`
in `ℚ`; both fail the `> 70` and `> 40` tests, so the branches agree. -/
def determineMoodsFromTracks (tracks : List SpotifyTrack) : List String :=
  let allText := String.intercalate " " (tracks.map fun t => jsToLower t.name)
  let moods :=
    (if jsIncludes allText "happy" || jsIncludes allText "joy" ||
        jsIncludes allText "smile" || jsIncludes allText "dance" ||
        jsIncludes allText "party" || jsIncludes allText "celebration" then
      ["Happy", "Upbeat"] else []) ++
    (if jsIncludes allText "energy" || jsIncludes allText "power" ||
        jsIncludes allText "fire" || jsIncludes allText "rock" ||
        jsIncludes allText "metal" || jsIncludes allText "intense" then
      ["Energetic", "Intense"] else []) ++
    (if jsIncludes allText "calm" || jsIncludes allText "peace" ||
        jsIncludes allText "quiet" || jsIncludes allText "chill" ||
        jsIncludes allText "soft" || jsIncludes allText "gentle" then
      ["Calm", "Relaxed"] else []) ++
    (if jsIncludes allText "sad" || jsIncludes allText "lonely" ||
        jsIncludes allText "tears" || jsIncludes allText "heartbreak" ||
        jsIncludes allText "melancholy" || jsIncludes allText "blue" then
      ["Melancholic", "Sad"] else [])
  let avgPopularity : ℚ := (tracks.map fun t => t.popularity).sum / tracks.length
  let moods := moods ++
    (if 70 < avgPopularity then ["Popular", "Mainstream"]
     else if 40 < avgPopularity then ["Moderate", "Balanced"]
     else ["Underground", "Alternative"])
  let moods := if moods.isEmpty then ["Diverse", "Mixed"] else moods
  (dedupFirst moods).take 5

/-- Model of `extractDecades` from `src/services/aiMusicService.ts` (lines
344-361): tally decade labels of parseable release dates, sort by
descending count (stable), take 3. -/
def extractDecades (tracks : List SpotifyTrack) : List String :=
  let tally := tracks.foldl
    (fun acc t =>
      match parseReleaseYear t.album.release_date with
      | none => acc
      | some y => bump acc (decadeLabel y))
    []
  (((tally.insertionSort fun a b => b.2 ≤ a.2).take 3).map fun p => p.1)

/-- Model of `analyzeMusicTaste` from `src/services/aiMusicService.ts` (lines
60-97): throws on an empty input (modelled as `Except.error` with the
thrown message), otherwise builds the profile. -/
def analyzeMusicTaste (topTracks : List SpotifyTrack) :
    Except String MusicTasteProfile :=
  if topTracks.isEmpty then .error "No tracks provided for analysis"
  else .ok
    { genres := extractGenres topTracks
      moods := determineMoodsFromTracks topTracks
      tempo := zeroStats, energy := zeroStats, danceability := zeroStats
      valence := zeroStats, acousticness := zeroStats
      instrumentalness := zeroStats
      popularity := analyzeFeature (topTracks.map fun t => t.popularity)
      key := [], timeSignature := []
      artists := (dedupFirst (topTracks.flatMap fun t =>
        t.artists.map fun a => a.name)).take 20
      decades := extractDecades topTracks }

/-- Tally in canonical form: keys in order, weights given by a function. -/
def mkTally (K : List String) (w : String → Nat) : List (String × Nat) :=
  K.map fun k => (k, w k)

/-- First-seen key accumulation of one track in `extractGenres`: a track with
no artists contributes nothing (the artist loop does not run). -/
def keyStep (K : List String) (t : SpotifyTrack) : List String :=
  K ++ if t.artists.isEmpty then [] else
    (inferGenresFromTrack t).filter fun g => decide (g ∉ K)

/-- The label order of the tally: labels in order of first contribution. -/
def labelFirstSeen (tracks : List SpotifyTrack) : List String :=
  tracks.foldl keyStep []

/-- How often `extractGenres` counts label `g`: once per (track, artist)
pair whose track maps to `g`. -/
def labelWeight (tracks : List SpotifyTrack) (g : String) : Nat :=
  (tracks.map fun t =>
    if g ∈ inferGenresFromTrack t then t.artists.length else 0).sum

/-- The album of the section 8.6 concrete scenario. -/
def album861 : SpotifyAlbum :=
  { id := "al1", name := "Scorpion", release_date := "2018-01-19" }

/-- The candidate track of the section 8.6 concrete scenario. -/
def track861 : SpotifyTrack :=
  { id := "tr1", name := "God\x27s Plan",
    artists := [{ id := "ar1", name := "Drake" }],
    album := album861, duration_ms := 198973, preview_url := none,
    popularity := 75 }

/-- The taste profile of the section 8.6 concrete scenario: artists
`["Drake"]`, decades `["2010s"]`, genres `["Hip-Hop"]`, popularity
average 70. -/
def profile861 : MusicTasteProfile :=
  { genres := ["Hip-Hop"], moods := [], tempo := zeroStats,
    energy := zeroStats, danceability := zeroStats, valence := zeroStats,
    acousticness := zeroStats, instrumentalness := zeroStats,
    popularity := { min := 40, max := 95, average := 70 },
    key := [], timeSignature := [], artists := ["Drake"],
    decades := ["2010s"] }

/-- A taste profile whose artist list holds the lower-cased name "drake"
and nothing else. -/
def profileLowerDrake : MusicTasteProfile :=
  { genres := [], moods := [], tempo := zeroStats, energy := zeroStats,
    danceability := zeroStats, valence := zeroStats, acousticness := zeroStats,
    instrumentalness := zeroStats, popularity := zeroStats,
    key := [], timeSignature := [], artists := ["drake"], decades := [] }

/-- A candidate track whose primary artist is spelled "Drake". -/
def trackByDrake : SpotifyTrack :=
  { id := "tr2", name := "Some Song",
    artists := [{ id := "ar1", name := "Drake" }],
    album := album861, duration_ms := 0, preview_url := none,
    popularity := 0 }

/-- A track titled "Hello". -/
def trackHello : SpotifyTrack :=
  { id := "h1", name := "Hello", artists := [{ id := "a1", name := "A" }],
    album := album861, duration_ms := 0, preview_url := none, popularity := 10 }

/-- A track titled "hello " (trailing space, different case). -/
def trackHelloTrail : SpotifyTrack :=
  { id := "h2", name := "hello ", artists := [{ id := "a2", name := "B" }],
    album := album861, duration_ms := 0, preview_url := none, popularity := 90 }

/-- An album with an unparseable release date, for the tally scenarios. -/
def albumBlank : SpotifyAlbum := { id := "al0", name := "N", release_date := "" }

/-- A track named "rock" with two artists: its labels are counted twice. -/
def exT1 : SpotifyTrack :=
  { id := "x1", name := "rock",
    artists := [{ id := "a", name := "A" }, { id := "b", name := "B" }],
    album := albumBlank, duration_ms := 0, preview_url := none, popularity := 0 }

/-- A track named "jazz" with one artist. -/
def exT2 : SpotifyTrack :=
  { id := "x2", name := "jazz", artists := [{ id := "c", name := "C" }],
    album := albumBlank, duration_ms := 0, preview_url := none, popularity := 0 }

/-- A second jazz track with one artist. -/
def exT3 : SpotifyTrack :=
  { id := "x3", name := "jazz two", artists := [{ id := "d", name := "D" }],
    album := albumBlank, duration_ms := 0, preview_url := none, popularity := 0 }

/-- Per the claim wording: the number of input tracks that map to a label,
each track contributing exactly once to each of its matched labels. -/
def claimedLabelFrequency (tracks : List SpotifyTrack) (g : String) : Nat :=
  (tracks.map fun t => if g ∈ inferGenresFromTrack t then 1 else 0).sum

/-- The ranking stated by the amended claim: labels in first-seen order,
weighted by the number of (track, artist) pairs whose track maps to the
label, stably sorted by descending weight, top 10. -/
def specGenreRanking (tracks : List SpotifyTrack) : List String :=
  ((((labelFirstSeen tracks).map fun g => (g, labelWeight tracks g)).insertionSort
    fun a b => b.2 ≤ a.2).take 10).map fun p => p.1

/-- Loop of `removeDuplicateTracks` in `src/services/aiMusicService.ts`
(lines 433-442), carrying the `seen` set of ids. -/
def removeDupSimGo (seen : List String) : List SimilarTrack → List SimilarTrack
  | [] => []
  | s :: ss =>
    if s.track.id ∈ seen then removeDupSimGo seen ss
    else s :: removeDupSimGo (s.track.id :: seen) ss

/-- Model of `removeDuplicateTracks`: keep the first occurrence of each id. -/
def removeDuplicateTracks (tracks : List SimilarTrack) : List SimilarTrack :=
  removeDupSimGo [] tracks

/-- One search-and-score round of `findSimilarTracks`: run a query, drop
excluded ids, score the rest, keep the candidates above the threshold. -/
def queryStep (p : MusicTasteProfile)
    (search : String → Nat → Except Unit (List SpotifyTrack))
    (excludeTrackIds : List String) (q : String) (lim : Nat) (thr : ℚ) :
    List SimilarTrack :=
  match search q lim with
  | .error _ => []
  | .ok ts =>
    ((ts.filter fun t => !(excludeTrackIds.contains t.id)).map
      fun t => calculateBasicSimilarity p t).filter
      fun s => decide (thr < s.similarityScore)

/-- Model of `findSimilarTracks` from `src/services/aiMusicService.ts` (lines
102-192), with the catalog search injected and the taste profile passed
explicitly (the code throws before this point when no profile exists):
genre queries (top 3, threshold 0.3), mood queries (threshold 0.2), artist
queries (top 5, threshold 0.1), a broader round (top 2 genres, threshold
0.1) when fewer than 20 candidates accumulated, then id-dedup, stable sort
by descending similarity and the limit cut. -/
def findSimilarTracks (p : MusicTasteProfile)
    (search : String → Nat → Except Unit (List SpotifyTrack))
    (excludeTrackIds : List String) (limit : Nat) : List SimilarTrack :=
  let fromGenres := (p.genres.take 3).flatMap fun genre =>
    queryStep p search excludeTrackIds genre 20 (3/10)
  let fromMoods := p.moods.flatMap fun mood =>
    queryStep p search excludeTrackIds (mood ++ " music") 15 (1/5)
  let fromArtists := (p.artists.take 5).flatMap fun artist =>
    queryStep p search excludeTrackIds ("artist:" ++ artist) 10 (1/10)
  let base := fromGenres ++ fromMoods ++ fromArtists
  let broad := if base.length < 20 then
      (p.genres.take 2).flatMap fun genre =>
        queryStep p search excludeTrackIds ("popular " ++ genre) 15 (1/10)
    else []
  (((removeDuplicateTracks (base ++ broad)).insertionSort
    fun a b => b.similarityScore ≤ a.similarityScore).take limit)

instance : IsTotal SimilarTrack fun a b => b.similarityScore ≤ a.similarityScore :=
  ⟨fun a b => (le_total a.similarityScore b.similarityScore).symm⟩

instance : IsTrans SimilarTrack fun a b => b.similarityScore ≤ a.similarityScore :=
  ⟨fun _ _ _ hab hbc => le_trans hbc hab⟩

/-- The section 8.6 scored candidate as a record. -/
def sim861 : SimilarTrack :=
  { track := track861, similarityScore := 199/200,
    reasons := ["By preferred artist", "From preferred decade (2010s)"] }

/-- A candidate occupying the exclude set. -/
def trackEx : SpotifyTrack :=
  { id := "trEx", name := "Other", artists := [{ id := "ar9", name := "X" }],
    album := album861, duration_ms := 0, preview_url := none, popularity := 0 }

/-- A catalog returning one excluded and one kept candidate on every query. -/
def searchW : String → Nat → Except Unit (List SpotifyTrack) :=
  fun _ _ => .ok [trackEx, track861]

/-- Deezer artist record (the `artist` field of a Deezer track). -/
structure DeezerArtist where
  id : String
  name : String
  deriving DecidableEq, Repr

/-- Model of `DeezerTrack` from the Deezer service; `preview` is a plain
string in the source (possibly empty, which JS treats as falsy). -/
structure DeezerTrack where
  id : String
  title : String
  artist : DeezerArtist
  preview : String
  deriving DecidableEq, Repr

/-- JS truthiness of an optional string: `null`, `undefined` and the empty
string are falsy. -/
def strOptTruthy : Option String → Bool
  | none => false
  | some s => !s.isEmpty

/-- The secondary-catalog query text, modelling the template string
interpolation of the track name and first artist name (an absent artist
interpolates as the string "undefined" in JS). -/
def previewQuery (track : SpotifyTrack) : String :=
  track.name ++ " " ++ (((track.artists.head?).map fun a => a.name).getD "undefined")

/-- The bidirectional case-insensitive title containment used to pick the
best Deezer match. -/
def deezerTitleMatch (d : DeezerTrack) (t : SpotifyTrack) : Bool :=
  jsIncludes (jsToLower d.title) (jsToLower t.name) ||
  jsIncludes (jsToLower t.name) (jsToLower d.title)

/-- The per-track body of the `Promise.all` map in
`WelcomeScreen.loadPlaylistTracks` (lines 83-116): return the track
untouched when a preview is already present, otherwise query Deezer once
and copy the preview of the first title match onto a copy of the track;
any failure or non-match returns the original track. The second component
lists the secondary-catalog queries issued. -/
def reconcileWelcomeTrack (search : String → Nat → Except Unit (List DeezerTrack))
    (track : SpotifyTrack) : SpotifyTrack × List String :=
  if strOptTruthy track.preview_url then (track, [])
  else
    match search (previewQuery track) 1 with
    | .error _ => (track, [previewQuery track])
    | .ok deezerTracks =>
      match deezerTracks.find? fun d => deezerTitleMatch d track with
      | some bestMatch =>
        if !bestMatch.preview.isEmpty then
          ({ track with preview_url := some bestMatch.preview }, [previewQuery track])
        else (track, [previewQuery track])
      | none => (track, [previewQuery track])

/-- The whole-list reconciliation of `WelcomeScreen.loadPlaylistTracks`:
one independent per-track reconciliation, keeping every track. -/
def loadPlaylistTracksPreviews (search : String → Nat → Except Unit (List DeezerTrack))
    (tracks : List SpotifyTrack) : List SpotifyTrack :=
  tracks.map fun t => (reconcileWelcomeTrack search t).1

/-- Model of `findDeezerPreviews` from `VibeModeScreen` (lines 108-166), run
to completion: every track is queried against Deezer (regardless of an
existing preview), and only tracks for which a matching result with a
non-empty preview was found are accumulated into the emitted list. -/
def findDeezerPreviews (search : String → Nat → Except Unit (List DeezerTrack))
    (tracks : List SpotifyTrack) : List SpotifyTrack :=
  tracks.foldl
    (fun acc t =>
      match search (previewQuery t) 3 with
      | .error _ => acc
      | .ok ds =>
        match ds.find? fun d => deezerTitleMatch d t with
        | some best =>
          if !best.preview.isEmpty then
            acc ++ [{ t with preview_url := some best.preview }]
          else acc
        | none => acc)
    []

/-- A track that already carries a primary-catalog preview. -/
def trackP : SpotifyTrack :=
  { id := "p1", name := "Song A", artists := [{ id := "pa", name := "P" }],
    album := album861, duration_ms := 0, preview_url := some "spotify-url",
    popularity := 50 }

/-- A Deezer result whose title matches `trackP` and has its own preview. -/
def dzMatch : DeezerTrack :=
  { id := "d1", title := "Song A", artist := { id := "da", name := "P" },
    preview := "deezer-url" }

/-- A catalog that always returns the matching Deezer result. -/
def searchD : String → Nat → Except Unit (List DeezerTrack) :=
  fun _ _ => .ok [dzMatch]

/-- A track with no preview. -/
def trackN : SpotifyTrack :=
  { id := "n1", name := "Song B", artists := [{ id := "na", name := "N" }],
    album := album861, duration_ms := 0, preview_url := none, popularity := 50 }

/-- A Deezer result whose title matches `trackN` in neither direction. -/
def dzNoMatch : DeezerTrack :=
  { id := "d2", title := "Completely Different", artist := { id := "db", name := "Q" },
    preview := "other-url" }

/-- A catalog that always returns only the non-matching result. -/
def searchNM : String → Nat → Except Unit (List DeezerTrack) :=
  fun _ _ => .ok [dzNoMatch]

/-- The by-name dedup loop yields a sublist of its input. -/
theorem removeDupByNameGo_sublist (seen : List String) (l : List SpotifyTrack) :
    (removeDupByNameGo seen l).Sublist l := by
  induction l generalizing seen with
  | nil => simp [removeDupByNameGo]
  | cons t ts ih =>
    by_cases h : normName t ∈ seen
    · simpa [removeDupByNameGo, h] using ((ih seen).trans (List.sublist_cons_self t ts))
    · simpa [removeDupByNameGo, h] using (ih (normName t :: seen)).cons₂ t

/-- The by-name dedup loop yields pairwise-distinct normalized names, none of
them already seen. -/
theorem removeDupByNameGo_keys (seen : List String) (l : List SpotifyTrack) :
    ((removeDupByNameGo seen l).map normName).Nodup ∧
      ∀ t ∈ removeDupByNameGo seen l, normName t ∉ seen := by
  induction l generalizing seen with
  | nil => simp [removeDupByNameGo]
  | cons t ts ih =>
    by_cases h : normName t ∈ seen
    · simpa [removeDupByNameGo, h] using ih seen
    · have ih' := ih (normName t :: seen)
      refine ⟨?_, ?_⟩
      · simp only [removeDupByNameGo, h, if_false, List.map_cons, List.nodup_cons]
        refine ⟨?_, ih'.1⟩
        intro hmem
        rcases List.mem_map.mp hmem with ⟨u, hu, hku⟩
        exact (ih'.2 u hu) (by simp [hku])
      · intro u hu
        simp only [removeDupByNameGo, h, if_false, List.mem_cons] at hu
        rcases hu with rfl | hu
        · exact h
        · intro hseen
          exact (ih'.2 u hu) (List.mem_cons_of_mem _ hseen)

/-- On an input with pairwise-distinct fresh keys the dedup loop is the
identity. -/
theorem removeDupByNameGo_of_nodup (seen : List String) (l : List SpotifyTrack)
    (hnd : (l.map normName).Nodup) (hdisj : ∀ t ∈ l, normName t ∉ seen) :
    removeDupByNameGo seen l = l := by
  induction l generalizing seen with
  | nil => simp [removeDupByNameGo]
  | cons t ts ih =>
    simp only [List.map_cons, List.nodup_cons] at hnd
    have ht : normName t ∉ seen := hdisj t (by simp)
    have hts : ∀ u ∈ ts, normName u ∉ (normName t :: seen) := by
      intro u hu
      simp only [List.mem_cons]
      rintro (heq | hseen)
      · exact hnd.1 (List.mem_map.mpr ⟨u, hu, heq⟩)
      · exact hdisj u (List.mem_cons_of_mem _ hu) hseen
    simp [removeDupByNameGo, ht, ih (normName t :: seen) hnd.2 hts]

/-- Every retained track is the first input track bearing its normalized
name. -/
theorem removeDupByNameGo_first (seen : List String) (l : List SpotifyTrack) :
    ∀ t ∈ removeDupByNameGo seen l,
      l.find? (fun u => normName u == normName t) = some t := by
  induction l generalizing seen with
  | nil => simp [removeDupByNameGo]
  | cons u us ih =>
    intro t ht
    by_cases h : normName u ∈ seen
    · simp only [removeDupByNameGo, h, if_true] at ht
      have hne : normName u ≠ normName t := by
        intro heq
        exact (removeDupByNameGo_keys seen us).2 t ht (heq ▸ h)
      rw [List.find?_cons_of_neg _ (by simpa using hne)]
      exact ih seen t ht
    · simp only [removeDupByNameGo, h, if_false, List.mem_cons] at ht
      rcases ht with rfl | ht
      · rw [List.find?_cons_of_pos _ (by simp)]
      · have hne : normName t ≠ normName u := by
          intro heq
          exact (removeDupByNameGo_keys (normName u :: seen) us).2 t ht (by simp [heq])
        rw [List.find?_cons_of_neg _ (by simpa using Ne.symm hne)]
        exact ih (normName u :: seen) t ht

/-- A `bump` on a canonical tally updates the weight of the bumped key and
appends the key when new. -/
theorem bump_mkTally (K : List String) (w : String → Nat) (g : String)
    (h0 : ∀ k, k ∉ K → w k = 0) :
    bump (mkTally K w) g =
      mkTally (K ++ if g ∈ K then [] else [g])
        (fun k => if k = g then w k + 1 else w k) := by
  by_cases hg : g ∈ K
  · have hany : ((List.map (fun k => (k, w k)) K).any fun p => p.1 == g) = true := by
      rw [List.any_eq_true]
      exact ⟨(g, w g), List.mem_map.mpr ⟨g, hg, rfl⟩, by simp⟩
    simp only [bump, mkTally, hany, if_true, hg, List.append_nil, List.map_map]
    apply List.map_congr_left
    intro k _
    by_cases hk : k = g <;> simp [hk]
  · have hany : ((List.map (fun k => (k, w k)) K).any fun p => p.1 == g) = false := by
      rw [List.any_eq_false]
      rintro ⟨k, c⟩ hmem
      rcases List.mem_map.mp hmem with ⟨k2, hk2, heq⟩
      cases heq
      simp only [beq_iff_eq]
      exact fun h => hg (h ▸ hk2)
    simp only [bump, mkTally, hany, Bool.false_eq_true, if_false, hg, List.map_append,
      List.map_singleton]
    congr 1
    · apply List.map_congr_left
      intro k hk
      have hne : k ≠ g := fun h => hg (h ▸ hk)
      simp [hne]
    · simp [h0 g hg]

/-- Bumping a duplicate-free label list increments each listed weight once
and appends the unseen labels in order. -/
theorem bumpAll_mkTally (gs : List String) (hnd : gs.Nodup) :
    ∀ (K : List String) (w : String → Nat), (∀ k, k ∉ K → w k = 0) →
    bumpAll (mkTally K w) gs =
      mkTally (K ++ gs.filter fun g => decide (g ∉ K))
        (fun k => if k ∈ gs then w k + 1 else w k) := by
  induction gs with
  | nil =>
    intro K w h0
    simp only [bumpAll, List.foldl_nil, List.filter_nil, List.append_nil]
    unfold mkTally
    apply List.map_congr_left
    intro k _
    simp
  | cons g gs ih =>
    intro K w h0
    have hnd' : gs.Nodup := hnd.of_cons
    have hgns : g ∉ gs := (List.nodup_cons.mp hnd).1
    have hstep := bump_mkTally K w g h0
    simp only [bumpAll, List.foldl_cons] at *
    rw [hstep]
    have h0' : ∀ k, k ∉ (K ++ if g ∈ K then [] else [g]) →
        (fun k => if k = g then w k + 1 else w k) k = 0 := by
      intro k hk
      simp only [List.mem_append] at hk
      push_neg at hk
      have hkK : k ∉ K := hk.1
      have hkg : k ≠ g := by
        intro h
        by_cases hgK : g ∈ K
        · exact hkK (h ▸ hgK)
        · exact hk.2 (by simp [hgK, h])
      simp [hkg, h0 k hkK]
    rw [ih hnd' _ _ h0']
    have hkeys : ((K ++ if g ∈ K then [] else [g]) ++
        (gs.filter fun k => decide (k ∉ (K ++ if g ∈ K then [] else [g])))) =
        K ++ List.filter (fun k => decide (k ∉ K)) (g :: gs) := by
      by_cases hgK : g ∈ K
      · have e1 : (gs.filter fun k => decide (k ∉ (K ++ if g ∈ K then [] else [g]))) =
            gs.filter fun k => decide (k ∉ K) := by
          apply List.filter_congr
          intro k hk
          simp [hgK]
        have e2 : (List.filter (fun k => decide (k ∉ K)) (g :: gs)) =
            List.filter (fun k => decide (k ∉ K)) gs := by
          simp [List.filter_cons, hgK]
        rw [e1, e2, if_pos hgK]
        simp
      · have e1 : (gs.filter fun k => decide (k ∉ (K ++ if g ∈ K then [] else [g]))) =
            gs.filter fun k => decide (k ∉ K) := by
          apply List.filter_congr
          intro k hk
          have hne : k ≠ g := fun h => hgns (h ▸ hk)
          simp [hgK, hne]
        have e2 : (List.filter (fun k => decide (k ∉ K)) (g :: gs)) =
            g :: List.filter (fun k => decide (k ∉ K)) gs := by
          simp [List.filter_cons, hgK]
        rw [e1, e2, if_neg hgK, List.append_assoc]
        rfl
    rw [hkeys]
    unfold mkTally
    congr 1
    funext k
    by_cases hk : k = g
    · subst hk
      simp [hgns]
    · by_cases hks : k ∈ gs <;> simp [hk, hks]

/-- Folding `bumpAll` once per artist adds the artist count to each label
weight; the keys are extended on the first iteration only. -/
theorem artistsFold_mkTally (gs : List String) (hnd : gs.Nodup)
    (L : List SpotifyArtist) :
    ∀ (K : List String) (w : String → Nat), (∀ k, k ∉ K → w k = 0) →
    L.foldl (fun acc _ => bumpAll acc gs) (mkTally K w) =
      mkTally (K ++ if L.isEmpty then [] else gs.filter fun g => decide (g ∉ K))
        (fun k => if k ∈ gs then w k + L.length else w k) := by
  induction L with
  | nil =>
    intro K w h0
    simp only [List.foldl_nil, List.isEmpty_nil, if_true, List.append_nil]
    unfold mkTally
    congr 1
    funext k
    by_cases hk : k ∈ gs <;> simp [hk]
  | cons a as ih =>
    intro K w h0
    simp only [List.foldl_cons]
    rw [bumpAll_mkTally gs hnd K w h0]
    have h0' : ∀ k, k ∉ (K ++ gs.filter fun g => decide (g ∉ K)) →
        (fun k => if k ∈ gs then w k + 1 else w k) k = 0 := by
      intro k hk
      simp only [List.mem_append, List.mem_filter] at hk
      push_neg at hk
      have hkK : k ∉ K := hk.1
      have hkgs : k ∉ gs := by
        intro hgs
        exact (hk.2 hgs) (by simpa using hkK)
      simp [hkgs, h0 k hkK]
    rw [ih _ _ h0']
    have hsub : ∀ g ∈ gs, g ∈ K ++ gs.filter fun g => decide (g ∉ K) := by
      intro g hg
      by_cases hgK : g ∈ K
      · exact List.mem_append.mpr (Or.inl hgK)
      · exact List.mem_append.mpr (Or.inr (List.mem_filter.mpr ⟨hg, by simpa using hgK⟩))
    have hfilter : (gs.filter fun g =>
        decide (g ∉ (K ++ gs.filter fun g => decide (g ∉ K)))) = [] := by
      rw [List.filter_eq_nil_iff]
      intro g hg
      simp only [decide_eq_true_eq, Decidable.not_not]
      exact hsub g hg
    have hkeys : ((K ++ gs.filter fun g => decide (g ∉ K)) ++
        (if as.isEmpty then [] else gs.filter fun g =>
          decide (g ∉ (K ++ gs.filter fun g => decide (g ∉ K))))) =
        K ++ (if (a :: as).isEmpty then [] else gs.filter fun g => decide (g ∉ K)) := by
      rw [hfilter]
      simp only [List.isEmpty_cons, if_false]
      cases as <;> simp
    rw [hkeys]
    unfold mkTally
    congr 1
    funext k
    by_cases hk : k ∈ gs
    · simp [hk]
      omega
    · simp [hk]

/-- A conditional singleton is a sublist of the singleton. -/
theorem ifSingletonSublist (c : Bool) (x : String) :
    (if c then [x] else []).Sublist [x] := by
  cases c <;> simp

/-- The keyword hits form a sublist of the fixed label table. -/
theorem inferGenresList_sublist (name artist : String) :
    (inferGenresList name artist).Sublist
      ["Hip-Hop", "Rock", "Pop", "Jazz", "Electronic", "Country",
       "Classical", "Blues", "Folk", "Reggae"] := by
  unfold inferGenresList
  exact List.Sublist.append (List.Sublist.append (List.Sublist.append
    (List.Sublist.append (List.Sublist.append (List.Sublist.append
    (List.Sublist.append (List.Sublist.append (List.Sublist.append
    (ifSingletonSublist _ "Hip-Hop") (ifSingletonSublist _ "Rock"))
    (ifSingletonSublist _ "Pop")) (ifSingletonSublist _ "Jazz"))
    (ifSingletonSublist _ "Electronic")) (ifSingletonSublist _ "Country"))
    (ifSingletonSublist _ "Classical")) (ifSingletonSublist _ "Blues"))
    (ifSingletonSublist _ "Folk")) (ifSingletonSublist _ "Reggae")

/-- A track never maps to the same label twice. -/
theorem inferGenresFromTrack_nodup (t : SpotifyTrack) :
    (inferGenresFromTrack t).Nodup := by
  have master : (["Hip-Hop", "Rock", "Pop", "Jazz", "Electronic", "Country",
      "Classical", "Blues", "Folk", "Reggae"] : List String).Nodup := by decide
  simp only [inferGenresFromTrack]
  split
  · decide
  · exact List.Nodup.sublist (inferGenresList_sublist _ _) master

/-- The tally after a list of tracks, in canonical form: keys accumulate by
`keyStep` and each weight grows by the per-artist label weight. -/
theorem genreTally_fold (ts : List SpotifyTrack) :
    ∀ (K : List String) (w : String → Nat), (∀ k, k ∉ K → w k = 0) →
    ts.foldl (fun acc t => t.artists.foldl
        (fun acc2 _ => bumpAll acc2 (inferGenresFromTrack t)) acc) (mkTally K w) =
      mkTally (ts.foldl keyStep K) (fun k => w k + labelWeight ts k) := by
  induction ts with
  | nil =>
    intro K w h0
    simp only [List.foldl_nil, labelWeight, List.map_nil, List.sum_nil]
    unfold mkTally
    congr 1
  | cons t ts ih =>
    intro K w h0
    simp only [List.foldl_cons]
    rw [artistsFold_mkTally _ (inferGenresFromTrack_nodup t) t.artists K w h0]
    have h0' : ∀ k, k ∉ (K ++ if t.artists.isEmpty then [] else
        (inferGenresFromTrack t).filter fun g => decide (g ∉ K)) →
        (fun k => if k ∈ inferGenresFromTrack t then w k + t.artists.length else w k) k
          = 0 := by
      intro k hk
      simp only [List.mem_append] at hk
      push_neg at hk
      have hkK : k ∉ K := hk.1
      rcases hempty : t.artists.isEmpty with _ | _
      · have hk2 := hk.2
        rw [hempty] at hk2
        simp only [Bool.false_eq_true, if_false] at hk2
        have hkg : k ∉ inferGenresFromTrack t := by
          intro hg
          exact hk2 (List.mem_filter.mpr ⟨hg, by simpa using hkK⟩)
        simp [hkg, h0 k hkK]
      · have hlen : t.artists.length = 0 := by
          simpa [List.isEmpty_iff_length_eq_zero] using hempty
        by_cases hkg : k ∈ inferGenresFromTrack t <;> simp [hkg, hlen, h0 k hkK]
    rw [ih _ _ h0']
    have hkeys : ts.foldl keyStep (K ++ if t.artists.isEmpty then [] else
        (inferGenresFromTrack t).filter fun g => decide (g ∉ K)) =
        (t :: ts).foldl keyStep K := rfl
    rw [hkeys]
    unfold mkTally
    congr 1
    funext k
    simp only [labelWeight, List.map_cons, List.sum_cons]
    by_cases hkg : k ∈ inferGenresFromTrack t
    · simp [hkg, labelWeight]
      omega
    · simp [hkg, labelWeight]

/-- The genre tally lists the first-seen labels with their per-(track, artist)
weights. -/
theorem genreTally_eq (tracks : List SpotifyTrack) :
    genreTally tracks = (labelFirstSeen tracks).map
      fun g => (g, labelWeight tracks g) := by
  have h := genreTally_fold tracks [] (fun _ => 0) (by simp)
  simpa [genreTally, mkTally, labelFirstSeen] using h

/-- No decade reason string collides with the artist reason string. -/
theorem decade_reason_ne (d : String) :
    "From preferred decade (" ++ d ++ ")" ≠ "By preferred artist" := by
  intro h
  have h2 := congrArg String.length h
  rw [String.length_append, String.length_append] at h2
  have e1 : ("From preferred decade (" : String).length = 23 := by decide
  have e2 : (")" : String).length = 1 := by decide
  have e3 : ("By preferred artist" : String).length = 19 := by decide
  omega

/-- C1: on the section 8.6 input — profile with artists `["Drake"]`, decades
`["2010s"]`, genres `["Hip-Hop"]`, popularity average 70, and the candidate
track by Drake released 2018-01-19 with popularity 75 — the similarity
scorer returns score `0.5 + 0.3 + 0.095 + 0.1 = 0.995` (the `min 1` clamp
leaves it unchanged) and reasons exactly
`["By preferred artist", "From preferred decade (2010s)"]`. -/
theorem c1_concrete_similarity_score :
    (calculateBasicSimilarity profile861 track861).similarityScore = 199/200 ∧
    (calculateBasicSimilarity profile861 track861).reasons =
      ["By preferred artist", "From preferred decade (2010s)"] := by
  constructor
  · have h1 : parseReleaseYear "2018-01-19" = some 2018 := by decide
    have h2 : decadeLabel 2018 = "2010s" := by decide
    have h3 : jsIncludes (jsToLower "God\x27s Plan") (jsToLower "Hip-Hop") = false := by
      decide
    have h4 : jsIncludes (jsToLower "Hip-Hop") (jsToLower "God\x27s Plan") = false := by
      decide
    simp only [calculateBasicSimilarity, profile861, track861, album861]
    simp [h1, h2, h3, h4]
    norm_num
  · decide

/-- C2 counterexample: the profile holds "drake", the candidate is by
"Drake" — a case-insensitive match (their lower-casings agree) — yet the
scorer emits no artist reason, because the source compares artist names
with exact, case-sensitive `Array.includes`. -/
theorem c2_counterexample_case_insensitive :
    jsToLower "Drake" = jsToLower "drake" ∧
    "By preferred artist" ∉
      (calculateBasicSimilarity profileLowerDrake trackByDrake).reasons := by
  exact ⟨by decide, by decide⟩

/-- C2 (amended): the scorer adds the artist signal (reason
"By preferred artist") exactly when some artist name of the candidate —
not only the primary one — is an exact, case-sensitive member of the
profile artist list. -/
theorem c2_artist_signal_exact_match_iff (p : MusicTasteProfile)
    (track : SpotifyTrack) :
    "By preferred artist" ∈ (calculateBasicSimilarity p track).reasons ↔
      ∃ a ∈ track.artists, a.name ∈ p.artists := by
  by_cases hA :
      ((track.artists.map fun a => a.name).any fun a => p.artists.contains a) = true
  · have hEx : ∃ a ∈ track.artists, a.name ∈ p.artists := by simpa using hA
    refine iff_of_true ?_ hEx
    simp [calculateBasicSimilarity, hEx]
  · have hNEx : ¬ ∃ a ∈ track.artists, a.name ∈ p.artists := by simpa using hA
    refine iff_of_false ?_ hNEx
    simp only [calculateBasicSimilarity]
    simp [hNEx]
    intro hmem
    have hsub : "By preferred artist" ∈
        ((match
            match parseReleaseYear track.album.release_date with
            | none => none
            | some y => if decadeLabel y ∈ p.decades then some (decadeLabel y) else none with
          | some d => ["From preferred decade (" ++ d ++ ")"]
          | none => []) ++
          if
              ∃ x ∈ p.genres,
                jsIncludes (jsToLower track.name) (jsToLower x) = true ∨
                  jsIncludes (jsToLower x) (jsToLower track.name) = true then
            ["Contains preferred genre keywords"]
          else []) := List.take_subset 3 _ hmem
    rcases List.mem_append.mp hsub with h1 | h2
    · rcases hopt : (match parseReleaseYear track.album.release_date with
          | none => none
          | some y => if decadeLabel y ∈ p.decades then some (decadeLabel y) else none :
          Option String) with _ | d
      · rw [hopt] at h1; simp at h1
      · rw [hopt] at h1; simp at h1
        exact decade_reason_ne d h1.symm
    · by_cases hg : ∃ x ∈ p.genres,
          jsIncludes (jsToLower track.name) (jsToLower x) = true ∨
            jsIncludes (jsToLower x) (jsToLower track.name) = true
      · rw [if_pos hg] at h2; simp at h2
      · rw [if_neg hg] at h2; simp at h2

/-- C5: deduplication by normalized title is idempotent, and the
normalized-title keys of its output are pairwise distinct. -/
theorem c5_dedupe_idempotent_unique_keys (L : List SpotifyTrack) :
    removeDuplicateTracksByName (removeDuplicateTracksByName L) =
      removeDuplicateTracksByName L ∧
    ((removeDuplicateTracksByName L).map normName).Nodup := by
  have hk := removeDupByNameGo_keys [] L
  exact ⟨removeDupByNameGo_of_nodup [] _ hk.1 (fun t _ => by simp), hk.1⟩

/-- C6: the by-name deduplicator keeps input order (its output is a sublist
of the input), every retained element is the first input element bearing
its normalized-title key, and the tracks "Hello" and "hello " collapse to
one entry, the earlier one. -/
theorem c6_dedupe_keeps_first_in_order (L : List SpotifyTrack) :
    (removeDuplicateTracksByName L).Sublist L ∧
    (∀ t ∈ removeDuplicateTracksByName L,
        L.find? (fun u => normName u == normName t) = some t) ∧
    removeDuplicateTracksByName [trackHello, trackHelloTrail] = [trackHello] := by
  refine ⟨removeDupByNameGo_sublist [] L, removeDupByNameGo_first [] L, ?_⟩
  decide

/-- C6 witness: instantiating the first-occurrence property on the concrete
two-track list of the scenario. -/
theorem c6_witness :
    [trackHello, trackHelloTrail].find?
      (fun u => normName u == normName trackHello) = some trackHello :=
  (c6_dedupe_keeps_first_in_order [trackHello, trackHelloTrail]).2.1
    trackHello (by decide)

/-- C7 counterexample: on three tracks — "rock" with two artists, two jazz
tracks with one artist each — two tracks map to "Jazz" and only one to
"Rock", yet `extractGenres` ranks "Rock" first, because each track is
counted once per artist, not once per track. -/
theorem c7_counterexample_artist_multiplicity :
    extractGenres [exT1, exT2, exT3] = ["Rock", "Jazz"] ∧
    claimedLabelFrequency [exT1, exT2, exT3] "Rock" <
      claimedLabelFrequency [exT1, exT2, exT3] "Jazz" :=
  ⟨by decide, by decide⟩

/-- C7 (amended): for every track list, the inferred-genre ranking equals
ranking labels by the number of (track, artist) pairs that map to them —
each track contributing once per listed artist to each of its matched
labels, with the single fallback label "Pop" when no keyword matches —
top 10 by descending frequency, ties broken by first-seen order. -/
theorem c7_genre_ranking_per_artist_pair (tracks : List SpotifyTrack) :
    extractGenres tracks = specGenreRanking tracks := by
  unfold extractGenres specGenreRanking
  rw [genreTally_eq]

/-- C8: the taste profiler rejects an empty track list with the
"No tracks provided for analysis" error, and succeeds on exactly the
non-empty lists. -/
theorem c8_insufficient_data_error :
    (analyzeMusicTaste [] = Except.error "No tracks provided for analysis") ∧
    ∀ ts : List SpotifyTrack, (∃ p, analyzeMusicTaste ts = .ok p) ↔ ts ≠ [] := by
  constructor
  · rfl
  · intro ts
    cases ts with
    | nil => simp [analyzeMusicTaste]
    | cons t ts => simp [analyzeMusicTaste]

/-- The track field of a scored candidate is the scored track. -/
theorem calcBasic_track (p : MusicTasteProfile) (t : SpotifyTrack) :
    (calculateBasicSimilarity p t).track = t := rfl

/-- No scored candidate of a query round carries an excluded id. -/
theorem queryStep_excludes (p : MusicTasteProfile)
    (search : String → Nat → Except Unit (List SpotifyTrack))
    (excludeTrackIds : List String) (q : String) (lim : Nat) (thr : ℚ) :
    ∀ s ∈ queryStep p search excludeTrackIds q lim thr,
      s.track.id ∉ excludeTrackIds := by
  intro s hs
  unfold queryStep at hs
  match h : search q lim with
  | .error e =>
    rw [h] at hs
    simp at hs
  | .ok ts =>
    rw [h] at hs
    rcases List.mem_filter.mp hs with ⟨hmap, _⟩
    rcases List.mem_map.mp hmap with ⟨t, htf, rfl⟩
    rcases List.mem_filter.mp htf with ⟨_, hni⟩
    simpa using hni

/-- The id-dedup loop yields a sublist of its input. -/
theorem removeDupSimGo_sublist (seen : List String) (l : List SimilarTrack) :
    (removeDupSimGo seen l).Sublist l := by
  induction l generalizing seen with
  | nil => simp [removeDupSimGo]
  | cons t ts ih =>
    by_cases h : t.track.id ∈ seen
    · simpa [removeDupSimGo, h] using ((ih seen).trans (List.sublist_cons_self t ts))
    · simpa [removeDupSimGo, h] using (ih (t.track.id :: seen)).cons₂ t

/-- The id-dedup loop yields pairwise-distinct ids, none already seen. -/
theorem removeDupSimGo_keys (seen : List String) (l : List SimilarTrack) :
    ((removeDupSimGo seen l).map fun s => s.track.id).Nodup ∧
      ∀ s ∈ removeDupSimGo seen l, s.track.id ∉ seen := by
  induction l generalizing seen with
  | nil => simp [removeDupSimGo]
  | cons t ts ih =>
    by_cases h : t.track.id ∈ seen
    · simpa [removeDupSimGo, h] using ih seen
    · have ih' := ih (t.track.id :: seen)
      refine ⟨?_, ?_⟩
      · simp only [removeDupSimGo, h, if_false, List.map_cons, List.nodup_cons]
        refine ⟨?_, ih'.1⟩
        intro hmem
        rcases List.mem_map.mp hmem with ⟨u, hu, hku⟩
        exact (ih'.2 u hu) (by simp [hku])
      · intro u hu
        simp only [removeDupSimGo, h, if_false, List.mem_cons] at hu
        rcases hu with rfl | hu
        · exact h
        · intro hseen
          exact (ih'.2 u hu) (List.mem_cons_of_mem _ hseen)

/-- C9: no track in the candidate-generation output carries an excluded id,
for every profile, catalog behaviour, exclude set and limit. -/
theorem c9_exclusion_respected (p : MusicTasteProfile)
    (search : String → Nat → Except Unit (List SpotifyTrack))
    (excludeTrackIds : List String) (limit : Nat) :
    ∀ s ∈ findSimilarTracks p search excludeTrackIds limit,
      s.track.id ∉ excludeTrackIds := by
  intro s hs
  unfold findSimilarTracks at hs
  have hs2 := List.take_subset _ _ hs
  have hs3 := (List.perm_insertionSort _ _).subset hs2
  have hs4 := (removeDupSimGo_sublist [] _).subset hs3
  rcases List.mem_append.mp hs4 with hbase | hbroad
  · rcases List.mem_append.mp hbase with hgm | hart
    · rcases List.mem_append.mp hgm with hg | hm
      · rcases List.mem_flatMap.mp hg with ⟨g, _, hq⟩
        exact queryStep_excludes _ _ _ _ _ _ s hq
      · rcases List.mem_flatMap.mp hm with ⟨m, _, hq⟩
        exact queryStep_excludes _ _ _ _ _ _ s hq
    · rcases List.mem_flatMap.mp hart with ⟨a, _, hq⟩
      exact queryStep_excludes _ _ _ _ _ _ s hq
  · by_cases hlen : ((p.genres.take 3).flatMap fun genre =>
        queryStep p search excludeTrackIds genre 20 (3/10)).length +
        (((p.moods.flatMap fun mood =>
          queryStep p search excludeTrackIds (mood ++ " music") 15 (1/5)).length +
        ((p.artists.take 5).flatMap fun artist =>
          queryStep p search excludeTrackIds ("artist:" ++ artist) 10 (1/10)).length)) < 20
    · rw [if_pos (by simpa using hlen)] at hbroad
      rcases List.mem_flatMap.mp hbroad with ⟨g, _, hq⟩
      exact queryStep_excludes _ _ _ _ _ _ s hq
    · rw [if_neg (by simpa using hlen)] at hbroad
      simp at hbroad

/-- Distinct ids out of the id-deduplicator. -/
theorem removeDuplicateTracks_ids_nodup (l : List SimilarTrack) :
    ((removeDuplicateTracks l).map fun s => s.track.id).Nodup :=
  (removeDupSimGo_keys [] l).1

/-- The dedup, stable sort and limit cut produce distinct ids, a
non-increasing score order, and a length within the limit. -/
theorem dedupSortTake_invariants (all : List SimilarTrack) (limit : Nat) :
    ((((removeDuplicateTracks all).insertionSort
      fun a b => b.similarityScore ≤ a.similarityScore).take limit).map
        fun s => s.track.id).Nodup ∧
    List.Sorted (fun a b => b.similarityScore ≤ a.similarityScore)
      (((removeDuplicateTracks all).insertionSort
        fun a b => b.similarityScore ≤ a.similarityScore).take limit) ∧
    (((removeDuplicateTracks all).insertionSort
      fun a b => b.similarityScore ≤ a.similarityScore).take limit).length ≤ limit := by
  refine ⟨?_, ?_, ?_⟩
  · have hnd := removeDuplicateTracks_ids_nodup all
    have hperm := (List.perm_insertionSort
      (fun a b : SimilarTrack => b.similarityScore ≤ a.similarityScore)
      (removeDuplicateTracks all)).map fun s => s.track.id
    have hnd2 := hperm.nodup_iff.mpr hnd
    exact List.Nodup.sublist (List.Sublist.map _ (List.take_sublist _ _)) hnd2
  · exact List.Pairwise.sublist (List.take_sublist _ _)
      (List.sorted_insertionSort _ _)
  · exact List.length_take_le _ _

/-- C10: the recommendation output has pairwise-distinct track ids, is
sorted by non-increasing similarity score, and respects the limit. -/
theorem c10_output_invariants (p : MusicTasteProfile)
    (search : String → Nat → Except Unit (List SpotifyTrack))
    (excludeTrackIds : List String) (limit : Nat) :
    ((findSimilarTracks p search excludeTrackIds limit).map
      fun s => s.track.id).Nodup ∧
    List.Sorted (fun a b => b.similarityScore ≤ a.similarityScore)
      (findSimilarTracks p search excludeTrackIds limit) ∧
    (findSimilarTracks p search excludeTrackIds limit).length ≤ limit := by
  simp only [findSimilarTracks]
  exact dedupSortTake_invariants _ _

/-- The section 8.6 scenario scores to the record `sim861`. -/
theorem calcBasic_861 : calculateBasicSimilarity profile861 track861 = sim861 := by
  have h1 : parseReleaseYear "2018-01-19" = some 2018 := by decide
  have h2 : decadeLabel 2018 = "2010s" := by decide
  have h3 : jsIncludes (jsToLower "God\x27s Plan") (jsToLower "Hip-Hop") = false := by
    decide
  have h4 : jsIncludes (jsToLower "Hip-Hop") (jsToLower "God\x27s Plan") = false := by
    decide
  simp only [calculateBasicSimilarity, profile861, track861, album861, sim861]
  simp [h1, h2, h3, h4]
  norm_num

/-- The concrete recommendation run: one query catalog, one excluded id, one
surviving candidate. -/
theorem findSimilar_861 :
    findSimilarTracks profile861 searchW ["trEx"] 50 = [sim861] := by
  have hfil : List.filter (fun t => !(List.contains ["trEx"] t.id))
      [trackEx, track861] = [track861] := by decide
  have h1 : decide ((3 : ℚ)/10 < sim861.similarityScore) = true := by
    simp only [decide_eq_true_eq, sim861]
    norm_num
  have h2 : decide ((1 : ℚ)/10 < sim861.similarityScore) = true := by
    simp only [decide_eq_true_eq, sim861]
    norm_num
  have hg : profile861.genres = ["Hip-Hop"] := rfl
  have hm : profile861.moods = [] := rfl
  have ha : profile861.artists = ["Drake"] := rfl
  have hid : sim861.track.id = "tr1" := rfl
  simp only [findSimilarTracks, queryStep, searchW, hg, hm, ha, List.take,
    List.flatMap_cons, List.flatMap_nil, List.append_nil, List.nil_append]
  simp only [hfil, List.map_cons, List.map_nil, calcBasic_861,
    List.filter_cons, List.filter_nil, h1, h2, if_true]
  simp [removeDuplicateTracks, removeDupSimGo, hid,
    List.insertionSort, List.orderedInsert]

/-- C9 witness: with a catalog always returning the excluded track "trEx"
and the kept track "tr1", the single output candidate is "tr1", whose id
is not excluded. -/
theorem c9_witness : sim861.track.id ∉ (["trEx"] : List String) :=
  c9_exclusion_respected profile861 searchW ["trEx"] 50 sim861
    (by rw [findSimilar_861]; exact List.mem_singleton.mpr rfl)

/-- C3 counterexample: `trackP` already has the primary-catalog preview
"spotify-url", yet the vibe-feed reconciliation pass queries the secondary
catalog for it and emits it with the Deezer preview "deezer-url" — the
primary preview does not always win. -/
theorem c3_counterexample_preview_overwritten :
    trackP.preview_url = some "spotify-url" ∧
    findDeezerPreviews searchD [trackP] =
      [{ trackP with preview_url := some "deezer-url" }] :=
  ⟨rfl, by decide⟩

/-- C3 (amended): in the playlist loader (`WelcomeScreen.loadPlaylistTracks`),
a track whose preview URL is already set to a non-empty string is returned
unchanged and no secondary-catalog query is issued for it; the vibe-feed
background pass (`VibeModeScreen.findDeezerPreviews`) instead queries the
secondary catalog for every track and overwrites the preview when a match
with a preview is found. -/
theorem c3_welcome_preview_noop
    (search : String → Nat → Except Unit (List DeezerTrack))
    (track : SpotifyTrack) (u : String)
    (hset : track.preview_url = some u) (hne : u ≠ "") :
    reconcileWelcomeTrack search track = (track, []) := by
  have hie : u.isEmpty = false := by
    rw [Bool.eq_false_iff]
    intro h
    exact hne ((String.isEmpty_iff u).mp h)
  have htruthy : strOptTruthy track.preview_url = true := by
    rw [hset]
    simp [strOptTruthy, hie]
  simp [reconcileWelcomeTrack, htruthy]

/-- C3 witness: the concrete track with preview "spotify-url" is a no-op for
the playlist reconciler even against a catalog with a matching result. -/
theorem c3_witness :
    reconcileWelcomeTrack searchD trackP = (trackP, []) :=
  c3_welcome_preview_noop searchD trackP "spotify-url" rfl (by decide)

/-- C4 counterexample: `trackN` has no preview and the only secondary result
matches in neither direction; the vibe-feed reconciliation over the
one-track list returns the empty list — the track is removed, not kept
with an unset preview. -/
theorem c4_counterexample_track_dropped :
    deezerTitleMatch dzNoMatch trackN = false ∧
    trackN.preview_url = none ∧
    findDeezerPreviews searchNM [trackN] = [] :=
  ⟨by decide, rfl, by decide⟩

/-- C4 (amended): in the playlist loader, a candidate with no preview for
which no secondary-catalog result title-matches keeps its preview URL
unset (the per-track reconciliation returns it unchanged) and is still
included in the resulting list; the vibe-feed background pass instead
emits only tracks for which a matching preview was found. -/
theorem c4_welcome_keeps_unmatched
    (search : String → Nat → Except Unit (List DeezerTrack))
    (tracks : List SpotifyTrack) (t : SpotifyTrack)
    (ht : t ∈ tracks) (hnone : t.preview_url = none)
    (hnm : ∀ ds, search (previewQuery t) 1 = Except.ok ds →
        ds.find? (fun d => deezerTitleMatch d t) = none) :
    (reconcileWelcomeTrack search t).1 = t ∧
    t ∈ loadPlaylistTracksPreviews search tracks := by
  have hfst : (reconcileWelcomeTrack search t).1 = t := by
    rcases hse : search (previewQuery t) 1 with e | ds
    · simp [reconcileWelcomeTrack, hnone, strOptTruthy, hse]
    · simp [reconcileWelcomeTrack, hnone, strOptTruthy, hse, hnm ds hse]
  refine ⟨hfst, ?_⟩
  unfold loadPlaylistTracksPreviews
  have hmem := List.mem_map_of_mem (fun t => (reconcileWelcomeTrack search t).1) ht
  simpa [hfst] using hmem

/-- C4 witness: the preview-less track against the non-matching catalog is
returned unchanged and is a member of the reconciled list. -/
theorem c4_witness :
    (reconcileWelcomeTrack searchNM trackN).1 = trackN ∧
    trackN ∈ loadPlaylistTracksPreviews searchNM [trackN] :=
  c4_welcome_keeps_unmatched searchNM [trackN] trackN (by decide) rfl
    (fun ds h => by injection h with h1; rw [← h1]; decide)

end Lyrafy
